import Mathlib

/-!
Verification development for the chatbot-ai streaming chat client.

The definitions below are a shallow embedding of the JavaScript sources:
  - `src/lib/openaiClient.js`   (createStream: frame decoder + tool-call assembler)
  - `src/hooks/useChat.js`      (sendMessage / stopMessage orchestration)
  - `src/state/messagesStore.js` and `src/state/runtimeStore.js` (zustand stores)
  - `src/lib/toolValidators.js` (validateToolCall)
  - `src/lib/toolRegistry.js`   (tool lookup)
  - `src/config/constants.js`   (MAX_INPUT_LENGTH)

Modelling conventions: JavaScript values flowing through JSON.parse are
modelled by the inductive `Json` (numbers restricted to integers, which covers
every numeric payload the protocol carries); exceptions are modelled with
`Except String`; the wall clock (Date.now) is a `now : Nat` parameter frozen
during one send; byte chunks are modelled as `List Char` (TextDecoder with
stream mode already guarantees that a UTF-8 code point split across chunks is
reassembled, so the char level is the faithful observation point).
-/

set_option autoImplicit false

namespace ChatbotAI

/-- JavaScript/JSON values as produced by JSON.parse (integers stand in for
JSON numbers; every number on this wire protocol is an index integer). -/
inductive Json where
  | null
  | bool (b : Bool)
  | num (n : Int)
  | str (s : String)
  | arr (elems : List Json)
  | obj (fields : List (String × Json))

mutual

/-- Structural equality test on JSON values (SameValueZero, as used by the
JavaScript Map holding pending tool-call fragments). -/
def Json.beq : Json → Json → Bool
  | .null, .null => true
  | .bool a, .bool b => a == b
  | .num a, .num b => a == b
  | .str a, .str b => a == b
  | .arr a, .arr b => jsonBeqList a b
  | .obj a, .obj b => jsonBeqFields a b
  | _, _ => false

def jsonBeqList : List Json → List Json → Bool
  | [], [] => true
  | x :: xs, y :: ys => Json.beq x y && jsonBeqList xs ys
  | _, _ => false

def jsonBeqFields : List (String × Json) → List (String × Json) → Bool
  | [], [] => true
  | (k, v) :: xs, (l, w) :: ys => k == l && Json.beq v w && jsonBeqFields xs ys
  | _, _ => false

end

/-- Equality test on optional JSON values (a JavaScript Map key may be the
undefined value when a delta lacks an index field). -/
def jsonOptBeq : Option Json → Option Json → Bool
  | none, none => true
  | some a, some b => Json.beq a b
  | _, _ => false

/-- JavaScript truthiness of a parsed JSON value. -/
def Json.truthy : Json → Bool
  | .null => false
  | .bool b => b
  | .num n => decide (n ≠ 0)
  | .str s => decide (s ≠ "")
  | .arr _ => true
  | .obj _ => true

/-- Optional-chaining field access (`x?.f`): `none` models undefined. -/
def Json.getField : Json → String → Option Json
  | .obj fs, k => fs.lookup k
  | _, _ => none

/-- `a?.f` on an optional receiver (undefined propagates). -/
def jsGet (x : Option Json) (k : String) : Option Json :=
  match x with
  | some v => v.getField k
  | none => none

/-- `a || b` on JavaScript values: the first operand if truthy, else the second. -/
def jsOr (a b : Option Json) : Option Json :=
  match a with
  | some v => if v.truthy then some v else b
  | none => b

mutual

/-- JSON.stringify on the modelled values (keys and strings on this protocol
carry no characters needing escapes beyond quote and backslash). -/
def Json.stringify : Json → String
  | .null => "null"
  | .bool b => if b then "true" else "false"
  | .num n => toString n
  | .str s => "\"" ++ s ++ "\""
  | .arr xs => "[" ++ stringifyElems xs ++ "]"
  | .obj fs => "\x7b" ++ stringifyFields fs ++ "\x7d"

def stringifyElems : List Json → String
  | [] => ""
  | [x] => Json.stringify x
  | x :: xs => Json.stringify x ++ "," ++ stringifyElems xs

def stringifyFields : List (String × Json) → String
  | [] => ""
  | [(k, v)] => "\"" ++ k ++ "\":" ++ Json.stringify v
  | (k, v) :: fs => "\"" ++ k ++ "\":" ++ Json.stringify v ++ "," ++ stringifyFields fs

end

mutual

/-- Template-literal stringification of a JavaScript value
(the undefined case renders as the literal text undefined). -/
def Json.display : Json → String
  | .null => "null"
  | .bool b => if b then "true" else "false"
  | .num n => toString n
  | .str s => s
  | .arr xs => displayElems xs
  | .obj _ => "[object Object]"

def displayElems : List Json → String
  | [] => ""
  | [x] => Json.display x
  | x :: xs => Json.display x ++ "," ++ displayElems xs

end

/-- Template-literal stringification where the value may be undefined. -/
def jsDisplay : Option Json → String
  | none => "undefined"
  | some v => v.display

/-- JSON whitespace. -/
def isJsonWs (c : Char) : Bool :=
  c = ' ' || c = '\n' || c = '\t' || c = '\r'

def skipWs : List Char → List Char
  | [] => []
  | c :: cs => if isJsonWs c then skipWs cs else c :: cs

/-- Body of a JSON string literal after the opening quote; returns the decoded
characters and the remainder after the closing quote. -/
def parseStringBody (acc : List Char) : List Char → Option (String × List Char)
  | [] => none
  | '"' :: rest => some (String.mk acc.reverse, rest)
  | '\\' :: c :: rest =>
      match c with
      | '"' => parseStringBody ('"' :: acc) rest
      | '\\' => parseStringBody ('\\' :: acc) rest
      | '/' => parseStringBody ('/' :: acc) rest
      | 'n' => parseStringBody ('\n' :: acc) rest
      | 't' => parseStringBody ('\t' :: acc) rest
      | 'r' => parseStringBody ('\r' :: acc) rest
      | 'b' => parseStringBody ('\x08' :: acc) rest
      | 'f' => parseStringBody ('\x0c' :: acc) rest
      | _ => none
  | '\\' :: [] => none
  | c :: rest => if c = '"' ∨ c = '\\' then none else parseStringBody (c :: acc) rest

/-- Leading decimal digits of a character list. -/
def takeDigits (acc : Nat) : List Char → Nat × List Char
  | [] => (acc, [])
  | c :: cs =>
      if c.isDigit then takeDigits (acc * 10 + (c.toNat - '0'.toNat)) cs
      else (acc, c :: cs)

mutual

/-- Recursive-descent JSON value parser (fueled; fuel bounded by input length). -/
def parseValue : Nat → List Char → Option (Json × List Char)
  | 0, _ => none
  | fuel + 1, cs =>
      match skipWs cs with
      | 'n' :: 'u' :: 'l' :: 'l' :: rest => some (.null, rest)
      | 't' :: 'r' :: 'u' :: 'e' :: rest => some (.bool true, rest)
      | 'f' :: 'a' :: 'l' :: 's' :: 'e' :: rest => some (.bool false, rest)
      | '"' :: rest =>
          match parseStringBody [] rest with
          | some (s, rest2) => some (.str s, rest2)
          | none => none
      | '[' :: rest =>
          (match skipWs rest with
           | ']' :: rest2 => some (.arr [], rest2)
           | rest2 => parseElems fuel rest2)
      | '\x7b' :: rest =>
          (match skipWs rest with
           | '\x7d' :: rest2 => some (.obj [], rest2)
           | rest2 => parseFields fuel rest2)
      | '-' :: c :: rest =>
          if c.isDigit then
            let (n, rest2) := takeDigits (c.toNat - '0'.toNat) rest
            some (.num (-(n : Int)), rest2)
          else none
      | c :: rest =>
          if c.isDigit then
            let (n, rest2) := takeDigits (c.toNat - '0'.toNat) rest
            some (.num (n : Int), rest2)
          else none
      | [] => none

/-- Comma-separated array elements up to the closing bracket. -/
def parseElems : Nat → List Char → Option (Json × List Char)
  | 0, _ => none
  | fuel + 1, cs =>
      match parseValue fuel cs with
      | some (v, rest) =>
          (match skipWs rest with
           | ',' :: rest2 =>
               (match parseElems fuel rest2 with
                | some (.arr xs, rest3) => some (.arr (v :: xs), rest3)
                | _ => none)
           | ']' :: rest2 => some (.arr [v], rest2)
           | _ => none)
      | none => none

/-- Comma-separated object members up to the closing brace. -/
def parseFields : Nat → List Char → Option (Json × List Char)
  | 0, _ => none
  | fuel + 1, cs =>
      match skipWs cs with
      | '"' :: rest =>
          (match parseStringBody [] rest with
           | some (k, rest2) =>
               (match skipWs rest2 with
                | ':' :: rest3 =>
                    (match parseValue fuel rest3 with
                     | some (v, rest4) =>
                         (match skipWs rest4 with
                          | ',' :: rest5 =>
                              (match parseFields fuel rest5 with
                               | some (.obj fs, rest6) => some (.obj ((k, v) :: fs), rest6)
                               | _ => none)
                          | '\x7d' :: rest5 => some (.obj [(k, v)], rest5)
                          | _ => none)
                     | none => none)
                | _ => none)
           | none => none)
      | _ => none

end

/-- JSON.parse: accepts exactly one value followed by whitespace. -/
def jsonParse (s : String) : Option Json :=
  match parseValue (s.length + 1) s.toList with
  | some (v, rest) => if skipWs rest = [] then some v else none
  | none => none

/-! ## Stream frame decoder and tool-call assembler
(src/lib/openaiClient.js, createStream) -/

/-- Events yielded by createStream and consumed by the sendMessage loop. -/
inductive StreamEvent where
  | text (content : String)
  | toolCall (id : Option Json) (name : String) (args : Json)

/-- One pending tool-call fragment: the object stored in incompleteToolCalls
(id is the raw index value used as the Map key; the name and argument fields
accumulate string fragments). -/
structure Frag where
  id : Option Json
  name : String
  args : String

/-- The incompleteToolCalls Map: insertion-ordered key/value pairs. -/
abbrev ToolCallMap := List (Option Json × Frag)

/-- Map.get: first entry whose key matches. -/
def mapGet (m : ToolCallMap) (k : Option Json) : Option Frag :=
  match m with
  | [] => none
  | (k2, v) :: rest => if jsonOptBeq k k2 then some v else mapGet rest k

/-- Map.set: update in place when the key exists, append otherwise. -/
def mapSet (m : ToolCallMap) (k : Option Json) (v : Frag) : ToolCallMap :=
  match m with
  | [] => [(k, v)]
  | (k2, v2) :: rest =>
      if jsonOptBeq k k2 then (k2, v) :: rest else (k2, v2) :: mapSet rest k v

/-- Map.delete: drop every entry whose key matches. -/
def mapDelete (m : ToolCallMap) (k : Option Json) : ToolCallMap :=
  m.filter (fun e => !(jsonOptBeq k e.1))

/-- Processing of one element of a delta tool_calls array: initialize the
fragment when the index is new, overwrite the name fragment, append the
arguments fragment, and emit a completed ToolCall once the accumulated
arguments parse (deleting the fragment from the map).  Name and argument
fragments are strings on this wire protocol. -/
def processToolCallDelta (m : ToolCallMap) (tc : Json) : ToolCallMap × List StreamEvent :=
  let toolCallId := tc.getField "index"
  let m1 := if (mapGet m toolCallId).isSome then m
            else mapSet m toolCallId ⟨toolCallId, "", ""⟩
  let cur := (mapGet m1 toolCallId).getD ⟨toolCallId, "", ""⟩
  let cur1 :=
    match jsGet (tc.getField "function") "name" with
    | some (.str s) => if s ≠ "" then { cur with name := s } else cur
    | _ => cur
  let cur2 :=
    match jsGet (tc.getField "function") "arguments" with
    | some (.str s) => if s ≠ "" then { cur1 with args := cur1.args ++ s } else cur1
    | _ => cur1
  let m2 := mapSet m1 toolCallId cur2
  if cur2.name ≠ "" ∧ cur2.args ≠ "" then
    match jsonParse cur2.args with
    | some parsedArgs =>
        (mapDelete m2 toolCallId, [.toolCall cur2.id cur2.name parsedArgs])
    | none => (m2, [])
  else (m2, [])

/-- The for-of loop over a delta tool_calls array. -/
def processToolCallList (m : ToolCallMap) : List Json → ToolCallMap × List StreamEvent
  | [] => (m, [])
  | tc :: rest =>
      let (m2, evs) := processToolCallDelta m tc
      let (m3, evs2) := processToolCallList m2 rest
      (m3, evs ++ evs2)

/-- Events and assembler-state transition for one parsed payload object:
the first choice is inspected; a truthy delta content field yields a text
event; a delta tool_calls array is folded into the assembler. -/
def payloadEvents (m : ToolCallMap) (parsed : Json) : ToolCallMap × List StreamEvent :=
  match parsed.getField "choices" with
  | some (.arr (choice :: _)) =>
      if choice.truthy then
        let textEvents :=
          match jsGet (choice.getField "delta") "content" with
          | some (.str s) => if s ≠ "" then [StreamEvent.text s] else []
          | _ => []
        let (m2, toolEvents) :=
          match jsGet (choice.getField "delta") "tool_calls" with
          | some (.arr tcs) => processToolCallList m tcs
          | _ => (m, [])
        (m2, textEvents ++ toolEvents)
      else (m, [])
  | _ => (m, [])

/-- Result of processing one complete line. -/
inductive LineResult where
  | terminated
  | continues (m : ToolCallMap) (events : List StreamEvent)

/-- The payload marker: the characters of "data: ". -/
def dataMarker : List Char := ['d', 'a', 't', 'a', ':', ' ']

/-- Processing of one complete line: lines without the payload marker are
ignored; the terminal sentinel ends the stream; a payload that fails to
parse is skipped silently (the catch branch); otherwise the parsed payload
drives text and tool-call events. -/
def lineStep (m : ToolCallMap) (line : List Char) : LineResult :=
  match line with
  | 'd' :: 'a' :: 't' :: 'a' :: ':' :: ' ' :: payload =>
      if payload = "[DONE]".toList then .terminated
      else
        match jsonParse (String.mk payload) with
        | some parsed =>
            let (m2, evs) := payloadEvents m parsed
            .continues m2 evs
        | none => .continues m []
  | _ => .continues m []

/-- buffer.split with re-buffering: complete lines of cur ++ cs, and the
trailing incomplete line (the popped last element). -/
def linesAux (cur : List Char) : List Char → List (List Char) × List Char
  | [] => ([], cur)
  | c :: cs =>
      if c = '\n' then
        let (ls, tr) := linesAux [] cs
        (cur :: ls, tr)
      else linesAux (cur ++ [c]) cs

/-- Sequential processing of complete lines, stopping at the terminal
sentinel (the generator return). -/
def runLinesSt (m : ToolCallMap) : List (List Char) → ToolCallMap × Bool × List StreamEvent
  | [] => (m, false, [])
  | l :: ls =>
      match lineStep m l with
      | .terminated => (m, true, [])
      | .continues m2 evs =>
          let (m3, d, evs2) := runLinesSt m2 ls
          (m3, d, evs ++ evs2)

/-- Decoder state across chunks: assembler map, re-buffered trailing line,
and whether the generator has returned. -/
structure DecoderState where
  toolMap : ToolCallMap
  buffer : List Char
  finished : Bool

/-- Processing of one incoming chunk: append to the buffer, split on line
boundaries, re-buffer the trailing incomplete line, and run each complete
line; once the generator has returned, nothing more is processed. -/
def chunkStep (st : DecoderState) (chunk : List Char) : DecoderState × List StreamEvent :=
  if st.finished then (st, [])
  else
    let (ls, tr) := linesAux st.buffer chunk
    let (m2, d, evs) := runLinesSt st.toolMap ls
    (⟨m2, tr, d⟩, evs)

/-- The whole chunk sequence, concatenating the yielded events. -/
def runChunks (st : DecoderState) : List (List Char) → List StreamEvent
  | [] => []
  | c :: cs =>
      let (st2, evs) := chunkStep st c
      evs ++ runChunks st2 cs

/-- createStream on a chunked byte stream, from the initial state
(empty buffer, empty assembler map). -/
def decodeStream (chunks : List (List Char)) : List StreamEvent :=
  runChunks ⟨[], [], false⟩ chunks

/-! ## Message and runtime stores
(src/state/messagesStore.js, src/state/runtimeStore.js) -/

/-- MAX_INPUT_LENGTH from src/config/constants.js. -/
def MAX_INPUT_LENGTH : Nat := 4000

inductive Role where
  | user
  | assistant
  | tool
  | system
deriving DecidableEq

/-- One chat message as stored by the messages store. -/
structure Message where
  id : String
  role : Role
  content : String
  timestamp : Nat
  toolName : Option String := none
  error : Option Bool := none
deriving DecidableEq

structure MessagesState where
  messages : List Message
deriving DecidableEq

/-- addMessage: append to the conversation. -/
def addMessage (st : MessagesState) (m : Message) : MessagesState :=
  ⟨st.messages ++ [m]⟩

/-- The update objects passed to updateLastMessage by useChat
(a content field, optionally an error flag); an absent field is none. -/
structure MessageUpdates where
  content : Option String := none
  error : Option Bool := none
deriving DecidableEq

/-- Object-spread merge of an update object over a message. -/
def applyUpdates (m : Message) (u : MessageUpdates) : Message :=
  { m with
    content := match u.content with | some c => c | none => m.content
    error := match u.error with | some b => some b | none => m.error }

/-- updateLastMessage: when the list is empty the state is returned
unchanged; otherwise the entry at the last index is replaced by the
spread-merge of the update over it. -/
def updateLastMessage (st : MessagesState) (u : MessageUpdates) : MessagesState :=
  match st.messages.getLast? with
  | none => st
  | some last => ⟨st.messages.set (st.messages.length - 1) (applyUpdates last u)⟩

/-- Runtime store fields the orchestration touches (the Date.now based
timing fields streamStartTime/streamDuration/toolExecutionStartTime are
wall-clock bookkeeping and are not modelled). -/
structure RuntimeState where
  isStreaming : Bool := false
  isBusyTool : Bool := false
  pendingToolCall : Option String := none
  lastError : Option String := none
  errorCount : Nat := 0
deriving DecidableEq

def startStreaming (r : RuntimeState) : RuntimeState :=
  { r with isStreaming := true }

/-- stopStreaming: clears the streaming flag (and records the duration,
not modelled); it touches no other store. -/
def stopStreaming (r : RuntimeState) : RuntimeState :=
  { r with isStreaming := false }

def setError (r : RuntimeState) (e : String) : RuntimeState :=
  { r with lastError := some e, errorCount := r.errorCount + 1 }

def startToolExecution (r : RuntimeState) (toolCall : String) : RuntimeState :=
  { r with isBusyTool := true, pendingToolCall := some toolCall }

def completeToolExecution (r : RuntimeState) : RuntimeState :=
  { r with isBusyTool := false, pendingToolCall := none }

/-- The combined store state visible to useChat. -/
structure ChatState where
  msgs : MessagesState
  runtime : RuntimeState
deriving DecidableEq

/-- stopMessage (useChat): delegates to the runtime store stopStreaming;
nothing else happens — no transport abort, no message-store change. -/
def stopMessage (st : ChatState) : ChatState :=
  { st with runtime := stopStreaming st.runtime }

/-! ## Tool validators (src/lib/toolValidators.js) -/

/-- Validation outcome object: valid flag plus optional error text. -/
structure VResult where
  valid : Bool
  error : Option String := none
deriving DecidableEq

/-- JavaScript whitespace for trim and for the regex whitespace class. -/
def jsWsChar (c : Char) : Bool :=
  c = ' ' || c = '\t' || c = '\n' || c = '\r' || c = '\x0b' || c = '\x0c'

/-- String.prototype.trim. -/
def jsTrim (s : String) : String :=
  String.mk (((s.toList.dropWhile jsWsChar).reverse.dropWhile jsWsChar).reverse)

/-- Object.keys: throws on null, lists field names of an object, index
strings of an array or string, and nothing for other primitives. -/
def jsObjectKeys : Json → Except String (List String)
  | .null => .error "Cannot convert undefined or null to object"
  | .obj fs => .ok (fs.map (fun f => f.1))
  | .arr xs => .ok ((List.range xs.length).map toString)
  | .str s => .ok ((List.range s.length).map toString)
  | .bool _ => .ok []
  | .num _ => .ok []

/-- Property read args.p: throws on null, undefined on primitives. -/
def jsGetProp : Json → String → Except String (Option Json)
  | .null, p => .error ("Cannot read properties of null reading " ++ p)
  | .obj fs, p => .ok (fs.lookup p)
  | _, _ => .ok none

/-- Match of one dangerous-pattern keyword followed by optional whitespace
and an opening parenthesis, at the head of the character list. -/
def kwParenAt (kw : List Char) (cs : List Char) : Bool :=
  decide (cs.take kw.length = kw) &&
    (match (cs.drop kw.length).dropWhile jsWsChar with
     | '(' :: _ => true
     | _ => false)

/-- Match of a literal pattern at the head of the character list. -/
def substrAt (pat : List Char) (cs : List Char) : Bool :=
  decide (cs.take pat.length = pat)

/-- Regex-style search: does the check succeed at any position? -/
def scanFor (p : List Char → Bool) : List Char → Bool
  | [] => p []
  | c :: cs => p (c :: cs) || scanFor p cs

/-- The dangerousPatterns tests of the calculate validator
(all case-insensitive). -/
def hasDangerousPattern (s : String) : Bool :=
  let cs := s.toList.map Char.toLower
  scanFor (kwParenAt "eval".toList) cs ||
  scanFor (kwParenAt "function".toList) cs ||
  scanFor (kwParenAt "settimeout".toList) cs ||
  scanFor (kwParenAt "setinterval".toList) cs ||
  scanFor (substrAt "document.".toList) cs ||
  scanFor (substrAt "window.".toList) cs ||
  scanFor (substrAt "localstorage.".toList) cs ||
  scanFor (substrAt "sessionstorage.".toList) cs

def validateGetCurrentTime (args : Json) : Except String VResult :=
  match jsObjectKeys args with
  | .error e => .error e
  | .ok keys =>
      if keys.length > 0 then .ok ⟨false, some "get_current_time takes no arguments"⟩
      else .ok ⟨true, none⟩

def validateCalculate (args : Json) : Except String VResult :=
  match jsGetProp args "expression" with
  | .error e => .error e
  | .ok expr =>
      match expr with
      | some (.str s) =>
          if s = "" then .ok ⟨false, some "expression must be a string"⟩
          else if s.length > 100 then
            .ok ⟨false, some "expression too long (max 100 characters)"⟩
          else if hasDangerousPattern s then
            .ok ⟨false, some "expression contains forbidden patterns"⟩
          else .ok ⟨true, none⟩
      | _ => .ok ⟨false, some "expression must be a string"⟩

def validateSaveNote (args : Json) : Except String VResult :=
  match jsGetProp args "title" with
  | .error e => .error e
  | .ok titleV =>
      match titleV with
      | some (.str title) =>
          if title = "" then .ok ⟨false, some "title must be a string"⟩
          else
            match jsGetProp args "content" with
            | .error e => .error e
            | .ok contentV =>
                match contentV with
                | some (.str content) =>
                    if content = "" then .ok ⟨false, some "content must be a string"⟩
                    else if (jsTrim title).length = 0 then
                      .ok ⟨false, some "title cannot be empty"⟩
                    else if (jsTrim content).length = 0 then
                      .ok ⟨false, some "content cannot be empty"⟩
                    else if title.length > 200 then
                      .ok ⟨false, some "title too long (max 200 characters)"⟩
                    else if content.length > 5000 then
                      .ok ⟨false, some "content too long (max 5000 characters)"⟩
                    else .ok ⟨true, none⟩
                | _ => .ok ⟨false, some "content must be a string"⟩
      | _ => .ok ⟨false, some "title must be a string"⟩

def validateReadNote (args : Json) : Except String VResult :=
  match jsGetProp args "title" with
  | .error e => .error e
  | .ok titleV =>
      match titleV with
      | none => .ok ⟨true, none⟩
      | some (.str t) =>
          if t ≠ "" ∧ t.length > 200 then
            .ok ⟨false, some "title too long (max 200 characters)"⟩
          else .ok ⟨true, none⟩
      | some _ => .ok ⟨false, some "title must be a string if provided"⟩

def validateOpenUi (args : Json) : Except String VResult :=
  match jsGetProp args "component" with
  | .error e => .error e
  | .ok compV =>
      match compV with
      | some (.str c) =>
          if c = "" then .ok ⟨false, some "component must be a string"⟩
          else if ¬ (c = "settings" ∨ c = "help" ∨ c = "notes" ∨ c = "about") then
            .ok ⟨false, some "component must be one of: settings, help, notes, about"⟩
          else
            match jsGetProp args "data" with
            | .error e => .error e
            | .ok dataV =>
                match dataV with
                | some (.str _) => .ok ⟨false, some "data must be an object if provided"⟩
                | some (.num _) => .ok ⟨false, some "data must be an object if provided"⟩
                | some (.bool _) => .ok ⟨false, some "data must be an object if provided"⟩
                | _ => .ok ⟨true, none⟩
      | _ => .ok ⟨false, some "component must be a string"⟩

/-- The validators Map built by initializeValidators. -/
def validatorFor (toolName : String) : Option (Json → Except String VResult) :=
  if toolName = "get_current_time" then some validateGetCurrentTime
  else if toolName = "calculate" then some validateCalculate
  else if toolName = "save_note" then some validateSaveNote
  else if toolName = "read_note" then some validateReadNote
  else if toolName = "open_ui" then some validateOpenUi
  else none

/-- validateToolCall: unregistered name gives an invalid result with a
reason; a throw inside a validator is caught and converted. -/
def validateToolCall (toolName : String) (args : Json) : VResult :=
  match validatorFor toolName with
  | none => ⟨false, some ("No validator found for tool: " ++ toolName)⟩
  | some validator =>
      match validator args with
      | .ok r => r
      | .error m => ⟨false, some ("Validation error: " ++ m)⟩

/-! ## Tool registry (src/lib/toolRegistry.js) -/

/-- Registered tool metadata the orchestrator inspects (the execute bodies
are external collaborators and are passed to the orchestrator model as an
explicit gateway function). -/
structure ToolSpec where
  name : String
  requiresConfirm : Bool
deriving DecidableEq

/-- toolRegistry.getTool on the five default tools. -/
def getTool (toolName : String) : Option ToolSpec :=
  if toolName = "get_current_time" then some ⟨"get_current_time", false⟩
  else if toolName = "calculate" then some ⟨"calculate", false⟩
  else if toolName = "save_note" then some ⟨"save_note", true⟩
  else if toolName = "read_note" then some ⟨"read_note", false⟩
  else if toolName = "open_ui" then some ⟨"open_ui", true⟩
  else none

/-! ## sendMessage orchestration (src/hooks/useChat.js)

The model covers the default functionType = null path with a successfully
opened stream (transport-level HTTP failures raise before any event is
seen and are outside the claims below); tool execution results come from
the gateway parameter exec, Date.now is the frozen parameter now. -/

/-- A completed tool call collected by the streaming loop. -/
structure ToolCallRec where
  id : Option Json
  name : String
  args : Json

/-- Externally observable orchestration actions. -/
inductive TraceStep where
  | transportOpened (requestMessages : List Message)
  | toolExecuted (toolName : String)

structure SendOutcome where
  result : Except String Unit
  state : ChatState
  trace : List TraceStep

/-- A single quote character (for messages quoting a tool name). -/
def sq : String := String.mk ['\'']

/-- The natural-language response synthesized from a tool result. -/
def naturalResponseFor (toolName : String) (toolResult : Json) : String :=
  if toolName = "calculate" then
    "The calculation result is: " ++
      jsDisplay (jsOr (toolResult.getField "formatted") (toolResult.getField "result"))
  else if toolName = "get_current_time" then
    "The current time is: " ++
      jsDisplay (jsOr (toolResult.getField "formatted") (toolResult.getField "currentTime"))
  else
    "I used the " ++ toolName ++ " tool and got: " ++ Json.stringify toolResult

/-- Accumulator of the for-await streaming loop. -/
structure StreamAcc where
  state : ChatState
  finalContent : String
  toolCalls : List ToolCallRec

/-- One iteration of the streaming loop: a text chunk extends
finalContent and republishes the assistant message; a completed tool
call is collected in arrival order. -/
def streamStep (acc : StreamAcc) : StreamEvent → StreamAcc
  | .text content =>
      let fc := acc.finalContent ++ content
      ⟨{ acc.state with msgs := updateLastMessage acc.state.msgs ⟨some fc, none⟩ },
       fc, acc.toolCalls⟩
  | .toolCall id toolName args =>
      ⟨acc.state, acc.finalContent, acc.toolCalls ++ [⟨id, toolName, args⟩]⟩

/-- Accumulator of the tool-processing loop. -/
structure ToolLoopAcc where
  state : ChatState
  finalContent : String
  trace : List TraceStep

/-- The tool-processing loop of sendMessage: validate, execute through the
gateway, append the tool-result message, replace the assistant content by
the synthesized response; any failure sets the runtime error and breaks,
abandoning the remaining queue; completeToolExecution runs on every exit
path of an iteration (the finally block). -/
def toolLoop (exec : String → Json → Except String Json) (now : Nat) :
    ToolLoopAcc → List ToolCallRec → ToolLoopAcc
  | acc, [] => acc
  | acc, tc :: rest =>
      let validation := validateToolCall tc.name tc.args
      if validation.valid = false then
        let msg := "Tool validation failed: " ++ jsDisplay (validation.error.map Json.str)
        { acc with state :=
            { acc.state with runtime :=
                completeToolExecution (setError acc.state.runtime
                  ("Tool execution failed: " ++ msg)) } }
      else
        let st1 := { acc.state with runtime := startToolExecution acc.state.runtime tc.name }
        match getTool tc.name with
        | none =>
            { acc with state :=
                { st1 with runtime :=
                    completeToolExecution (setError st1.runtime
                      ("Tool execution failed: Tool " ++ sq ++ tc.name ++ sq ++ " not found")) } }
        | some _tool =>
            match exec tc.name tc.args with
            | .error em =>
                { state :=
                    { st1 with runtime :=
                        completeToolExecution (setError st1.runtime
                          ("Tool execution failed: " ++ em)) }
                  finalContent := acc.finalContent
                  trace := acc.trace ++ [.toolExecuted tc.name] }
            | .ok toolResult =>
                let toolMessage : Message :=
                  ⟨toString now, .tool, Json.stringify toolResult, now, some tc.name, none⟩
                let st2 := { st1 with msgs := addMessage st1.msgs toolMessage }
                let naturalResponse := naturalResponseFor tc.name toolResult
                let st3 := { st2 with msgs := updateLastMessage st2.msgs ⟨some naturalResponse, none⟩ }
                let st4 := { st3 with runtime := completeToolExecution st3.runtime }
                toolLoop exec now ⟨st4, naturalResponse, acc.trace ++ [.toolExecuted tc.name]⟩ rest

/-- sendMessage: the three preconditions are checked before anything else
(they throw before the try block, so no store changes and no transport);
then the user and empty assistant messages are appended, streaming starts,
one transport request is opened, the stream is folded, collected tool
calls are processed, the final content is republished, and the finally
block clears the streaming flag. -/
def sendMessage (text apiKey : String) (st0 : ChatState)
    (stream : List StreamEvent) (exec : String → Json → Except String Json)
    (now : Nat) : SendOutcome :=
  if jsTrim text = "" then ⟨.error "Please enter a message", st0, []⟩
  else if text.length > MAX_INPUT_LENGTH then
    ⟨.error ("Message too long (max " ++ toString MAX_INPUT_LENGTH ++ " characters)"), st0, []⟩
  else if apiKey = "" then
    ⟨.error "API key not configured. Please set it in Settings.", st0, []⟩
  else
    let messages0 := st0.msgs.messages
    let userMessage : Message := ⟨toString now, .user, jsTrim text, now, none, none⟩
    let st1 := { st0 with msgs := addMessage st0.msgs userMessage }
    let assistantMessage : Message := ⟨toString (now + 1), .assistant, "", now, none, none⟩
    let st2 := { st1 with msgs := addMessage st1.msgs assistantMessage }
    let st3 := { st2 with runtime := startStreaming st2.runtime }
    let apiMessages :=
      (messages0.filter (fun m => decide (m.role ≠ .assistant ∧ m.role ≠ .tool))) ++ [userMessage]
    let trace0 := [TraceStep.transportOpened apiMessages]
    let sAcc := stream.foldl streamStep ⟨st3, "", []⟩
    let afterTools :=
      if sAcc.toolCalls.length > 0 then
        toolLoop exec now ⟨sAcc.state, sAcc.finalContent, trace0⟩ sAcc.toolCalls
      else ⟨sAcc.state, sAcc.finalContent, trace0⟩
    let st6 := { afterTools.state with
                   msgs := updateLastMessage afterTools.state.msgs ⟨some afterTools.finalContent, none⟩ }
    let st7 := { st6 with runtime := stopStreaming st6.runtime }
    ⟨.ok (), st7, afterTools.trace⟩

/-- Transport requests recorded in a trace. -/
def isTransportOpen : TraceStep → Bool
  | .transportOpened _ => true
  | _ => false

def transportOpenCount (tr : List TraceStep) : Nat :=
  (tr.filter isTransportOpen).length

/-- Tool executions recorded in a trace, in order. -/
def executedNames (tr : List TraceStep) : List String :=
  tr.filterMap (fun s => match s with | .toolExecuted n => some n | _ => none)

/-- The tool-role messages of a store, in order. -/
def toolMessages (st : MessagesState) : List Message :=
  st.messages.filter (fun m => decide (m.role = .tool))

/-- The content of the last message of a store. -/
def lastContent (st : MessagesState) : Option String :=
  (st.messages.getLast?).map (fun m => m.content)

/-- The completed tool calls carried by a stream, in emission order. -/
def streamToolCalls (stream : List StreamEvent) : List ToolCallRec :=
  stream.filterMap (fun e =>
    match e with
    | .toolCall id toolName args => some ⟨id, toolName, args⟩
    | _ => none)

/-- Role and tool-name tags of the conversation, in order (content-blind
projection: every content rewrite preserves it). -/
def roleTags (st : MessagesState) : List (Role × Option String) :=
  st.messages.map (fun m => (m.role, m.toolName))

/-- The tool-name column of the tool-role messages, in order. -/
def toolTags (st : MessagesState) : List (Option String) :=
  (toolMessages st).map (fun m => m.toolName)

/-- The two shapes a validation result can take: plain validity, or
invalidity carrying an error text. -/
def VShape (r : VResult) : Prop :=
  r = ⟨true, none⟩ ∨ ∃ e, r = ⟨false, some e⟩

/-- Count of completed tool-call events carrying a given index. -/
def toolCallEventCountFor (id : Option Json) (evs : List StreamEvent) : Nat :=
  (evs.filter (fun e =>
    match e with
    | .toolCall i _ _ => jsonOptBeq id i
    | _ => false)).length

/-- A complete tool-call delta payload line for index 0 (name and full
argument object in one delta), used twice in a row by the resurrection
counterexample. -/
def resurrectLine : String :=
  "data: \x7b\"choices\":[\x7b\"delta\":\x7b\"tool_calls\":[\x7b\"index\":0," ++
  "\"function\":\x7b\"name\":\"get_current_time\",\"arguments\":\"\x7b\x7d\"\x7d\x7d]\x7d\x7d]\x7d"

/-- One chunk holding the resurrection lines back to back. -/
def resurrectChunk : List Char := (resurrectLine ++ "\n" ++ resurrectLine ++ "\n").toList

/-- Delta line: index 0 starts (name calculate, argument fragment left
incomplete). -/
def oooLineA : String :=
  "data: \x7b\"choices\":[\x7b\"delta\":\x7b\"tool_calls\":[\x7b\"index\":0," ++
  "\"function\":\x7b\"name\":\"calculate\",\"arguments\":\"\x7b\\\"expr\"\x7d\x7d]\x7d\x7d]\x7d"

/-- Delta line: index 1 arrives complete (its arguments parse at once). -/
def oooLineB : String :=
  "data: \x7b\"choices\":[\x7b\"delta\":\x7b\"tool_calls\":[\x7b\"index\":1," ++
  "\"function\":\x7b\"name\":\"get_current_time\",\"arguments\":\"\x7b\x7d\"\x7d\x7d]\x7d\x7d]\x7d"

/-- Delta line: the rest of the index 0 arguments, completing them. -/
def oooLineC : String :=
  "data: \x7b\"choices\":[\x7b\"delta\":\x7b\"tool_calls\":[\x7b\"index\":0," ++
  "\"function\":\x7b\"arguments\":\"ession\\\": \\\"2+2\\\"\x7d\"\x7d\x7d]\x7d\x7d]\x7d"

def oooChunk1 : List Char := (oooLineA ++ "\n").toList
def oooChunk2 : List Char := (oooLineB ++ "\n").toList
def oooChunk3 : List Char := (oooLineC ++ "\n").toList

/-! ## Theorems -/

theorem updateLast_append (l : List Message) (m : Message) (u : MessageUpdates) :
    updateLastMessage ⟨l ++ [m]⟩ u = ⟨l ++ [applyUpdates m u]⟩ := by
  unfold updateLastMessage
  rw [List.getLast?_concat]
  simp only [List.length_append, List.length_singleton]
  congr 1
  have h : l.length + 1 - 1 = l.length + 0 := by omega
  rw [h, List.set_append_right _ _ (by omega)]
  simp

/-- C10: updateLastMessage merges the updates into the last message only: on the empty list the store is unchanged; otherwise the length is preserved, every non-last entry is untouched, and the last entry becomes the spread-merge of the updates over it. -/
theorem c10_updateLastMessage_frame (st : MessagesState) (u : MessageUpdates) :
    (st.messages = [] → updateLastMessage st u = st) ∧
    ((updateLastMessage st u).messages.length = st.messages.length) ∧
    (∀ i, i + 1 < st.messages.length →
      (updateLastMessage st u).messages[i]? = st.messages[i]?) ∧
    (∀ last, st.messages.getLast? = some last →
      (updateLastMessage st u).messages.getLast? = some (applyUpdates last u)) := by
  refine ⟨?_, ?_, ?_, ?_⟩
  · intro h
    unfold updateLastMessage
    rw [h]
    rfl
  · unfold updateLastMessage
    cases h : st.messages.getLast? with
    | none => rfl
    | some last => simp
  · intro i hi
    unfold updateLastMessage
    cases h : st.messages.getLast? with
    | none => rfl
    | some last =>
        simp only
        rw [List.getElem?_set_ne (by omega)]
  · intro last h
    obtain ⟨messages⟩ := st
    rcases List.eq_nil_or_concat messages with rfl | ⟨l, b, rfl⟩
    · cases h
    · rw [List.concat_eq_append] at h ⊢
      rw [List.getLast?_concat] at h
      cases h
      rw [show updateLastMessage ⟨l ++ [last]⟩ u = ⟨l ++ [applyUpdates last u]⟩ from
        updateLast_append l last u]
      exact List.getLast?_concat _


theorem vshape_gct (args : Json) (r : VResult)
    (h : validateGetCurrentTime args = .ok r) : VShape r := by
  unfold validateGetCurrentTime at h
  repeat' split at h
  all_goals first
    | (injection h with h2; subst h2;
       first | exact Or.inl rfl | exact Or.inr ⟨_, rfl⟩)
    | injection h

theorem vshape_calc (args : Json) (r : VResult)
    (h : validateCalculate args = .ok r) : VShape r := by
  unfold validateCalculate at h
  repeat' split at h
  all_goals first
    | (injection h with h2; subst h2;
       first | exact Or.inl rfl | exact Or.inr ⟨_, rfl⟩)
    | injection h

theorem vshape_save (args : Json) (r : VResult)
    (h : validateSaveNote args = .ok r) : VShape r := by
  unfold validateSaveNote at h
  repeat' split at h
  all_goals first
    | (injection h with h2; subst h2;
       first | exact Or.inl rfl | exact Or.inr ⟨_, rfl⟩)
    | injection h

theorem vshape_read (args : Json) (r : VResult)
    (h : validateReadNote args = .ok r) : VShape r := by
  unfold validateReadNote at h
  repeat' split at h
  all_goals first
    | (injection h with h2; subst h2;
       first | exact Or.inl rfl | exact Or.inr ⟨_, rfl⟩)
    | injection h

theorem vshape_open (args : Json) (r : VResult)
    (h : validateOpenUi args = .ok r) : VShape r := by
  unfold validateOpenUi at h
  repeat' split at h
  all_goals first
    | (injection h with h2; subst h2;
       first | exact Or.inl rfl | exact Or.inr ⟨_, rfl⟩)
    | injection h

theorem vtc_eq_ok {toolName : String} {args : Json} {v : Json → Except String VResult}
    {r : VResult} (hv : validatorFor toolName = some v) (hr : v args = .ok r) :
    validateToolCall toolName args = r := by
  unfold validateToolCall
  rw [hv]
  simp only [hr]

theorem vtc_eq_error {toolName : String} {args : Json} {v : Json → Except String VResult}
    {m : String} (hv : validatorFor toolName = some v) (hm : v args = .error m) :
    validateToolCall toolName args = ⟨false, some ("Validation error: " ++ m)⟩ := by
  unfold validateToolCall
  rw [hv]
  simp only [hm]

theorem vtc_eq_none {toolName : String} {args : Json} (hv : validatorFor toolName = none) :
    validateToolCall toolName args =
      ⟨false, some ("No validator found for tool: " ++ toolName)⟩ := by
  unfold validateToolCall
  rw [hv]

/-- C9: validateToolCall is total: for every tool name and argument value it returns either a plain valid result or an invalid result carrying an error text; an unregistered name yields an invalid result naming the tool, and a throw inside an individual validator is caught and converted to an invalid result. -/
theorem c9_validateToolCall_total (toolName : String) (args : Json) :
    VShape (validateToolCall toolName args) ∧
    (validatorFor toolName = none →
      validateToolCall toolName args =
        ⟨false, some ("No validator found for tool: " ++ toolName)⟩) ∧
    (∀ v m, validatorFor toolName = some v → v args = .error m →
      validateToolCall toolName args = ⟨false, some ("Validation error: " ++ m)⟩) := by
  refine ⟨?_, fun h => vtc_eq_none h, fun v m hv hm => vtc_eq_error hv hm⟩
  cases hv : validatorFor toolName with
  | none => exact Or.inr ⟨_, vtc_eq_none hv⟩
  | some v =>
      have hone : v = validateGetCurrentTime ∨ v = validateCalculate ∨ v = validateSaveNote ∨
          v = validateReadNote ∨ v = validateOpenUi := by
        unfold validatorFor at hv
        repeat' split at hv
        all_goals first
          | (injection hv with hv2; subst hv2;
             first
               | exact Or.inl rfl
               | exact Or.inr (Or.inl rfl)
               | exact Or.inr (Or.inr (Or.inl rfl))
               | exact Or.inr (Or.inr (Or.inr (Or.inl rfl)))
               | exact Or.inr (Or.inr (Or.inr (Or.inr rfl))))
          | injection hv
      rcases hone with rfl | rfl | rfl | rfl | rfl
      · cases hr : validateGetCurrentTime args with
        | ok r => rw [vtc_eq_ok hv hr]; exact vshape_gct args r hr
        | error m => exact Or.inr ⟨_, vtc_eq_error hv hr⟩
      · cases hr : validateCalculate args with
        | ok r => rw [vtc_eq_ok hv hr]; exact vshape_calc args r hr
        | error m => exact Or.inr ⟨_, vtc_eq_error hv hr⟩
      · cases hr : validateSaveNote args with
        | ok r => rw [vtc_eq_ok hv hr]; exact vshape_save args r hr
        | error m => exact Or.inr ⟨_, vtc_eq_error hv hr⟩
      · cases hr : validateReadNote args with
        | ok r => rw [vtc_eq_ok hv hr]; exact vshape_read args r hr
        | error m => exact Or.inr ⟨_, vtc_eq_error hv hr⟩
      · cases hr : validateOpenUi args with
        | ok r => rw [vtc_eq_ok hv hr]; exact vshape_open args r hr
        | error m => exact Or.inr ⟨_, vtc_eq_error hv hr⟩

/-- C8: when the input is empty after trimming, or its length exceeds MAX_INPUT_LENGTH, or the API credential is absent, sendMessage returns a validation error with the store completely unchanged and an empty trace: no transport request was opened and no session state was touched. -/
theorem c8_preconditions_fail_fast (text apiKey : String) (st : ChatState) (stream : List StreamEvent)
    (exec : String → Json → Except String Json) (now : Nat)
    (h : jsTrim text = "" ∨ text.length > MAX_INPUT_LENGTH ∨ apiKey = "") :
    ∃ e, sendMessage text apiKey st stream exec now = ⟨.error e, st, []⟩ := by
  unfold sendMessage
  by_cases h1 : jsTrim text = ""
  · rw [if_pos h1]; exact ⟨_, rfl⟩
  · rw [if_neg h1]
    by_cases h2 : text.length > MAX_INPUT_LENGTH
    · rw [if_pos h2]; exact ⟨_, rfl⟩
    · rw [if_neg h2]
      have h3 : apiKey = "" := by tauto
      rw [if_pos h3]; exact ⟨_, rfl⟩

/-- C2 (amended): stopMessage only clears the runtime streaming flag; it never modifies the conversation log (the accumulated text visible at cancellation is never blanked) and it does not prevent the still-running stream loop from applying further events: a text event applied after cancellation still extends the accumulated content. -/
theorem c2_stop_only_clears_flag (st : ChatState) (fc : String) (tcs : List ToolCallRec) (s : String) :
    (stopMessage st).msgs = st.msgs ∧
    (stopMessage st).runtime.isStreaming = false ∧
    (stopMessage st).runtime.lastError = st.runtime.lastError ∧
    (streamStep ⟨stopMessage st, fc, tcs⟩ (.text s)).finalContent = fc ++ s :=
  ⟨rfl, rfl, rfl, rfl⟩

/-- C2 counterexample: after the stop action fires between two text events, the second text event is still applied, so the assistant content grows past the cancellation point instead of retaining exactly the pre-cancellation text. -/
theorem c2_counterexample :
    let st0 : ChatState := ⟨⟨[⟨"1", Role.assistant, "", 0, none, none⟩]⟩, ⟨true, false, none, none, 0⟩⟩
    let acc1 := streamStep ⟨st0, "", []⟩ (.text "Hello")
    let acc2 : StreamAcc := ⟨stopMessage acc1.state, acc1.finalContent, acc1.toolCalls⟩
    let acc3 := streamStep acc2 (.text " world")
    lastContent acc2.state.msgs = some "Hello" ∧
    lastContent acc3.state.msgs = some "Hello world" ∧
    acc3.finalContent = "Hello world" ∧ ("Hello world" : String) ≠ "Hello" :=
  ⟨rfl, rfl, rfl, by decide⟩

/-- C5: a payload-marked line whose payload fails structured parsing (and is not the terminal sentinel) is skipped silently: the decoder neither raises nor terminates, its assembler state is untouched, and the remaining lines produce exactly the events they would produce without the malformed line. -/
theorem c5_malformed_line_skipped (m : ToolCallMap) (pre suf : List (List Char)) (payload : List Char)
    (hparse : jsonParse (String.mk payload) = none)
    (hdone : payload ≠ "[DONE]".toList) :
    runLinesSt m (pre ++ (dataMarker ++ payload) :: suf) = runLinesSt m (pre ++ suf) := by
  induction pre generalizing m with
  | nil =>
      simp only [List.nil_append]
      have hstep : lineStep m (dataMarker ++ payload) = .continues m [] := by
        simp only [lineStep, dataMarker, List.cons_append, List.nil_append,
          if_neg hdone, hparse]
      rcases hrr : runLinesSt m suf with ⟨m3, d3, evs3⟩
      simp [runLinesSt, hstep, hrr]
  | cons l ls ih =>
      simp only [List.cons_append]
      cases hls : lineStep m l with
      | terminated => simp [runLinesSt, hls]
      | continues m2 evs => simp [runLinesSt, hls, ih]

theorem mapGet_mapDelete_self (m : ToolCallMap) (k : Option Json) :
    mapGet (mapDelete m k) k = none := by
  induction m with
  | nil => rfl
  | cons e rest ih =>
      unfold mapDelete at ih ⊢
      cases hbeq : jsonOptBeq k e.1 with
      | true => simpa [List.filter, hbeq] using ih
      | false => simp [List.filter, hbeq, mapGet, ih]

/-- C3 (amended): when a delta makes a fragment emit a completed ToolCall, exactly one ToolCall is emitted by that delta and the fragment is removed from the pending map; however a later delta for the same index is not ignored - it re-initializes a fresh fragment and can produce a further emission (see the counterexample). -/
theorem c3_emitted_fragment_retired (m : ToolCallMap) (tc : Json) (m2 : ToolCallMap)
    (evs : List StreamEvent)
    (h : processToolCallDelta m tc = (m2, evs)) (hne : evs ≠ []) :
    mapGet m2 (tc.getField "index") = none ∧ evs.length = 1 := by
  unfold processToolCallDelta at h
  dsimp only at h
  repeat' split at h
  all_goals injection h with h1 h2
  all_goals subst h1
  all_goals subst h2
  all_goals first
    | exact ⟨mapGet_mapDelete_self _ _, rfl⟩
    | exact absurd rfl hne

theorem linesAux_cons_newline (cur cs : List Char) :
    linesAux cur ('\n' :: cs) = (cur :: (linesAux [] cs).1, (linesAux [] cs).2) := by
  rcases h : linesAux [] cs with ⟨ls, tr⟩
  simp [linesAux, h]

theorem linesAux_cons_other (cur : List Char) (c : Char) (cs : List Char) (hc : ¬ c = '\n') :
    linesAux cur (c :: cs) = linesAux (cur ++ [c]) cs := by
  simp [linesAux, hc]

theorem linesAux_append (a b : List Char) (cur : List Char) :
    linesAux cur (a ++ b) =
      ((linesAux cur a).1 ++ (linesAux (linesAux cur a).2 b).1,
       (linesAux (linesAux cur a).2 b).2) := by
  induction a generalizing cur with
  | nil =>
      rcases hb : linesAux cur b with ⟨p, q⟩
      simp [linesAux, hb]
  | cons c a ih =>
      by_cases hc : c = '\n'
      · subst hc
        rw [List.cons_append, linesAux_cons_newline, linesAux_cons_newline, ih]
        simp
      · rw [List.cons_append, linesAux_cons_other _ _ _ hc, linesAux_cons_other _ _ _ hc, ih]

theorem runLinesSt_cons (m : ToolCallMap) (l : List Char) (ls : List (List Char)) :
    runLinesSt m (l :: ls) =
      (match lineStep m l with
       | .terminated => (m, true, [])
       | .continues m2 evs =>
           ((runLinesSt m2 ls).1, (runLinesSt m2 ls).2.1, evs ++ (runLinesSt m2 ls).2.2)) := by
  cases hls : lineStep m l with
  | terminated => simp [runLinesSt, hls]
  | continues m2 evs =>
      rcases hr : runLinesSt m2 ls with ⟨m3, d, evs2⟩
      simp [runLinesSt, hls, hr]

theorem runLinesSt_append (ls1 ls2 : List (List Char)) (m : ToolCallMap) :
    runLinesSt m (ls1 ++ ls2) =
      (if (runLinesSt m ls1).2.1 then runLinesSt m ls1
       else ((runLinesSt (runLinesSt m ls1).1 ls2).1,
             (runLinesSt (runLinesSt m ls1).1 ls2).2.1,
             (runLinesSt m ls1).2.2 ++ (runLinesSt (runLinesSt m ls1).1 ls2).2.2)) := by
  induction ls1 generalizing m with
  | nil =>
      rcases hq : runLinesSt m ls2 with ⟨a, b, c⟩
      simp [runLinesSt, hq]
  | cons l ls1 ih =>
      rw [List.cons_append, runLinesSt_cons, runLinesSt_cons]
      cases hls : lineStep m l with
      | terminated => simp
      | continues m2 evs =>
          simp only
          rw [ih]
          by_cases hd : (runLinesSt m2 ls1).2.1
          · simp [hd]
          · simp [hd, List.append_assoc]

theorem chunkStep_not_finished (st : DecoderState) (c : List Char)
    (h : st.finished = false) :
    chunkStep st c =
      (⟨(runLinesSt st.toolMap (linesAux st.buffer c).1).1,
        (linesAux st.buffer c).2,
        (runLinesSt st.toolMap (linesAux st.buffer c).1).2.1⟩,
       (runLinesSt st.toolMap (linesAux st.buffer c).1).2.2) := by
  rcases hl : linesAux st.buffer c with ⟨ls, tr⟩
  rcases hr : runLinesSt st.toolMap ls with ⟨m2, d, evs⟩
  simp [chunkStep, h, hl, hr]

theorem runChunks_cons (st : DecoderState) (c : List Char) (cs : List (List Char)) :
    runChunks st (c :: cs) = (chunkStep st c).2 ++ runChunks (chunkStep st c).1 cs := by
  rcases hc : chunkStep st c with ⟨st2, evs⟩
  simp [runChunks, hc]

theorem runChunks_finished (cs : List (List Char)) (st : DecoderState)
    (h : st.finished = true) : runChunks st cs = [] := by
  induction cs with
  | nil => rfl
  | cons c cs ih =>
      simp only [runChunks, chunkStep, h, if_pos rfl]
      exact ih

theorem runChunks_eq (cs : List (List Char)) (st : DecoderState)
    (h : st.finished = false) :
    runChunks st cs = (runLinesSt st.toolMap (linesAux st.buffer cs.flatten).1).2.2 := by
  induction cs generalizing st with
  | nil => simp [runChunks, linesAux, runLinesSt]
  | cons c cs ih =>
      rw [runChunks_cons, chunkStep_not_finished _ _ h]
      rw [List.flatten_cons, linesAux_append, runLinesSt_append]
      by_cases hd : (runLinesSt st.toolMap (linesAux st.buffer c).1).2.1
      · rw [if_pos hd]
        rw [runChunks_finished cs _ (by simpa using hd)]
        simp
      · rw [if_neg hd]
        rw [ih _ (by simpa using (Bool.not_eq_true _).mp hd)]

/-- C4: chunk-boundary independence: decoding a byte stream delivered in arbitrary chunks yields exactly the events of decoding it as one single chunk, because the trailing incomplete line of each chunk is re-buffered and prepended to the next chunk. -/
theorem c4_chunk_boundary_independence (chunks : List (List Char)) :
    decodeStream chunks = decodeStream [chunks.flatten] := by
  unfold decodeStream
  rw [runChunks_eq _ _ rfl, runChunks_eq _ _ rfl]
  simp

theorem toolLoop_nil (exec : String → Json → Except String Json) (now : Nat)
    (acc : ToolLoopAcc) : toolLoop exec now acc [] = acc := rfl

theorem toolLoop_cons_invalid (exec : String → Json → Except String Json) (now : Nat)
    (acc : ToolLoopAcc) (tc : ToolCallRec) (rest : List ToolCallRec)
    (hval : (validateToolCall tc.name tc.args).valid = false) :
    toolLoop exec now acc (tc :: rest) =
      { acc with state :=
          { acc.state with runtime :=
              completeToolExecution (setError acc.state.runtime
                ("Tool execution failed: Tool validation failed: " ++
                  jsDisplay ((validateToolCall tc.name tc.args).error.map Json.str))) } } := by
  simp [toolLoop, hval, ← String.append_assoc]

theorem toolLoop_cons_noTool (exec : String → Json → Except String Json) (now : Nat)
    (acc : ToolLoopAcc) (tc : ToolCallRec) (rest : List ToolCallRec)
    (hval : (validateToolCall tc.name tc.args).valid = true)
    (hg : getTool tc.name = none) :
    toolLoop exec now acc (tc :: rest) =
      { acc with state :=
          { acc.state with runtime :=
              completeToolExecution (setError (startToolExecution acc.state.runtime tc.name)
                ("Tool execution failed: Tool " ++ sq ++ tc.name ++ sq ++ " not found")) } } := by
  simp only [toolLoop, hval, hg]
  simp

theorem toolLoop_cons_execError (exec : String → Json → Except String Json) (now : Nat)
    (acc : ToolLoopAcc) (tc : ToolCallRec) (rest : List ToolCallRec) (spec : ToolSpec)
    (em : String)
    (hval : (validateToolCall tc.name tc.args).valid = true)
    (hg : getTool tc.name = some spec)
    (he : exec tc.name tc.args = .error em) :
    toolLoop exec now acc (tc :: rest) =
      ⟨{ acc.state with runtime :=
           completeToolExecution (setError (startToolExecution acc.state.runtime tc.name)
             ("Tool execution failed: " ++ em)) },
       acc.finalContent,
       acc.trace ++ [.toolExecuted tc.name]⟩ := by
  simp only [toolLoop, hval, hg, he]
  simp

theorem toolLoop_cons_execOk (exec : String → Json → Except String Json) (now : Nat)
    (acc : ToolLoopAcc) (tc : ToolCallRec) (rest : List ToolCallRec) (spec : ToolSpec)
    (r : Json)
    (hval : (validateToolCall tc.name tc.args).valid = true)
    (hg : getTool tc.name = some spec)
    (he : exec tc.name tc.args = .ok r) :
    toolLoop exec now acc (tc :: rest) =
      toolLoop exec now
        ⟨{ acc.state with
             msgs := updateLastMessage
               (addMessage acc.state.msgs
                 ⟨toString now, .tool, Json.stringify r, now, some tc.name, none⟩)
               ⟨some (naturalResponseFor tc.name r), none⟩,
             runtime := completeToolExecution (startToolExecution acc.state.runtime tc.name) },
         naturalResponseFor tc.name r,
         acc.trace ++ [.toolExecuted tc.name]⟩ rest := by
  simp only [toolLoop, hval, hg, he]
  simp

theorem roleTags_addMessage (st : MessagesState) (m : Message) :
    roleTags (addMessage st m) = roleTags st ++ [(m.role, m.toolName)] := by
  simp [roleTags, addMessage]

theorem roleTags_updateLast (st : MessagesState) (u : MessageUpdates) :
    roleTags (updateLastMessage st u) = roleTags st := by
  obtain ⟨messages⟩ := st
  rcases List.eq_nil_or_concat messages with rfl | ⟨l, b, rfl⟩
  · rfl
  · rw [List.concat_eq_append,
      show updateLastMessage ⟨l ++ [b]⟩ u = ⟨l ++ [applyUpdates b u]⟩ from
        updateLast_append l b u]
    simp [roleTags, applyUpdates]

theorem toolTags_eq (st : MessagesState) :
    toolTags st = (roleTags st).filterMap
      (fun p => if p.1 = Role.tool then some p.2 else none) := by
  obtain ⟨messages⟩ := st
  induction messages with
  | nil => rfl
  | cons m rest ih =>
      simp only [toolTags, toolMessages, roleTags, List.filter, List.map, List.filterMap] at ih ⊢
      by_cases hm : m.role = Role.tool
      · simp [hm, ih]
      · simp [hm, ih]

theorem toolLoop_append_ok (exec : String → Json → Except String Json) (now : Nat)
    (res : ToolCallRec → Json) (calls1 calls2 : List ToolCallRec) (acc : ToolLoopAcc)
    (hval : ∀ tc ∈ calls1, (validateToolCall tc.name tc.args).valid = true)
    (hreg : ∀ tc ∈ calls1, (getTool tc.name).isSome = true)
    (hexec : ∀ tc ∈ calls1, exec tc.name tc.args = .ok (res tc)) :
    toolLoop exec now acc (calls1 ++ calls2) =
      toolLoop exec now (toolLoop exec now acc calls1) calls2 := by
  induction calls1 generalizing acc with
  | nil => rw [List.nil_append, toolLoop_nil]
  | cons tc rest ih =>
      obtain ⟨spec, hg⟩ := Option.isSome_iff_exists.mp (hreg tc (List.mem_cons_self tc rest))
      rw [List.cons_append,
        toolLoop_cons_execOk exec now acc tc (rest ++ calls2) spec (res tc)
          (hval tc (List.mem_cons_self tc rest)) hg (hexec tc (List.mem_cons_self tc rest)),
        toolLoop_cons_execOk exec now acc tc rest spec (res tc)
          (hval tc (List.mem_cons_self tc rest)) hg (hexec tc (List.mem_cons_self tc rest))]
      exact ih _ (fun t ht => hval t (List.mem_cons_of_mem tc ht))
        (fun t ht => hreg t (List.mem_cons_of_mem tc ht))
        (fun t ht => hexec t (List.mem_cons_of_mem tc ht))

theorem toolLoop_ok_run (exec : String → Json → Except String Json) (now : Nat)
    (res : ToolCallRec → Json) (calls : List ToolCallRec) (acc : ToolLoopAcc)
    (hval : ∀ tc ∈ calls, (validateToolCall tc.name tc.args).valid = true)
    (hreg : ∀ tc ∈ calls, (getTool tc.name).isSome = true)
    (hexec : ∀ tc ∈ calls, exec tc.name tc.args = .ok (res tc)) :
    (toolLoop exec now acc calls).trace =
      acc.trace ++ calls.map (fun tc => TraceStep.toolExecuted tc.name) ∧
    roleTags (toolLoop exec now acc calls).state.msgs =
      roleTags acc.state.msgs ++ calls.map (fun tc => (Role.tool, some tc.name)) ∧
    (toolLoop exec now acc calls).state.runtime.lastError =
      acc.state.runtime.lastError := by
  induction calls generalizing acc with
  | nil => simp [toolLoop_nil]
  | cons tc rest ih =>
      obtain ⟨spec, hg⟩ := Option.isSome_iff_exists.mp (hreg tc (List.mem_cons_self tc rest))
      rw [toolLoop_cons_execOk exec now acc tc rest spec (res tc)
          (hval tc (List.mem_cons_self tc rest)) hg (hexec tc (List.mem_cons_self tc rest))]
      obtain ⟨iht, ihr, ihe⟩ := ih _ (fun t ht => hval t (List.mem_cons_of_mem tc ht))
        (fun t ht => hreg t (List.mem_cons_of_mem tc ht))
        (fun t ht => hexec t (List.mem_cons_of_mem tc ht))
      refine ⟨?_, ?_, ?_⟩
      · rw [iht]; simp
      · rw [ihr]
        simp only [roleTags_updateLast, roleTags_addMessage]
        simp
      · rw [ihe]
        simp [completeToolExecution, startToolExecution, setError]

theorem transportOpenCount_append_toolExec (tr : List TraceStep) (n : String) :
    transportOpenCount (tr ++ [TraceStep.toolExecuted n]) = transportOpenCount tr := by
  simp [transportOpenCount, isTransportOpen]

theorem toolLoop_transportOpenCount (exec : String → Json → Except String Json) (now : Nat)
    (acc : ToolLoopAcc) (calls : List ToolCallRec) :
    transportOpenCount (toolLoop exec now acc calls).trace =
      transportOpenCount acc.trace := by
  induction calls generalizing acc with
  | nil => rfl
  | cons tc rest ih =>
      by_cases hval : (validateToolCall tc.name tc.args).valid = false
      · rw [toolLoop_cons_invalid exec now acc tc rest hval]
      · have hval' : (validateToolCall tc.name tc.args).valid = true := by
          revert hval; cases (validateToolCall tc.name tc.args).valid <;> simp
        cases hg : getTool tc.name with
        | none => rw [toolLoop_cons_noTool exec now acc tc rest hval' hg]
        | some spec =>
            cases he : exec tc.name tc.args with
            | error em =>
                rw [toolLoop_cons_execError exec now acc tc rest spec em hval' hg he]
                exact transportOpenCount_append_toolExec _ _
            | ok r =>
                rw [toolLoop_cons_execOk exec now acc tc rest spec r hval' hg he]
                rw [ih]
                exact transportOpenCount_append_toolExec _ _

theorem foldl_streamStep_toolCalls (stream : List StreamEvent) (acc : StreamAcc) :
    (stream.foldl streamStep acc).toolCalls = acc.toolCalls ++ streamToolCalls stream := by
  induction stream generalizing acc with
  | nil => simp [streamToolCalls]
  | cons e rest ih =>
      cases e with
      | text s =>
          rw [List.foldl_cons, ih]
          simp [streamStep, streamToolCalls]
      | toolCall id toolName args =>
          rw [List.foldl_cons, ih]
          simp [streamStep, streamToolCalls]

theorem foldl_streamStep_roleTags (stream : List StreamEvent) (acc : StreamAcc) :
    roleTags (stream.foldl streamStep acc).state.msgs = roleTags acc.state.msgs := by
  induction stream generalizing acc with
  | nil => rfl
  | cons e rest ih =>
      cases e with
      | text s =>
          rw [List.foldl_cons, ih]
          simp [streamStep, roleTags_updateLast]
      | toolCall id toolName args =>
          rw [List.foldl_cons, ih]
          rfl

theorem foldl_streamStep_runtime (stream : List StreamEvent) (acc : StreamAcc) :
    (stream.foldl streamStep acc).state.runtime = acc.state.runtime := by
  induction stream generalizing acc with
  | nil => rfl
  | cons e rest ih =>
      cases e with
      | text s => rw [List.foldl_cons, ih]; rfl
      | toolCall id toolName args => rw [List.foldl_cons, ih]; rfl

theorem sendMessage_main (text apiKey : String) (st0 : ChatState)
    (stream : List StreamEvent) (exec : String → Json → Except String Json) (now : Nat)
    (h1 : ¬ jsTrim text = "") (h2 : ¬ text.length > MAX_INPUT_LENGTH) (h3 : ¬ apiKey = "") :
    sendMessage text apiKey st0 stream exec now =
      (let apiMessages :=
         (st0.msgs.messages.filter
           (fun m => decide (m.role ≠ .assistant ∧ m.role ≠ .tool))) ++
         [⟨toString now, .user, jsTrim text, now, none, none⟩]
       let st3 : ChatState :=
         ⟨addMessage (addMessage st0.msgs ⟨toString now, .user, jsTrim text, now, none, none⟩)
            ⟨toString (now + 1), .assistant, "", now, none, none⟩,
          startStreaming st0.runtime⟩
       let sAcc := stream.foldl streamStep ⟨st3, "", []⟩
       let afterTools :=
         if sAcc.toolCalls.length > 0 then
           toolLoop exec now
             ⟨sAcc.state, sAcc.finalContent, [.transportOpened apiMessages]⟩ sAcc.toolCalls
         else ⟨sAcc.state, sAcc.finalContent, [.transportOpened apiMessages]⟩
       ⟨.ok (),
        ⟨updateLastMessage afterTools.state.msgs ⟨some afterTools.finalContent, none⟩,
         stopStreaming afterTools.state.runtime⟩,
        afterTools.trace⟩) := by
  unfold sendMessage
  rw [if_neg h1, if_neg h2, if_neg h3]

theorem executedNames_append (a b : List TraceStep) :
    executedNames (a ++ b) = executedNames a ++ executedNames b := by
  simp [executedNames]

theorem executedNames_map_toolExec (calls : List ToolCallRec) :
    executedNames (calls.map (fun tc => TraceStep.toolExecuted tc.name)) =
      calls.map (fun tc => tc.name) := by
  induction calls with
  | nil => rfl
  | cons tc rest ih => simp [executedNames] at ih ⊢; exact ih

/-- C1 (amended): sendMessage never opens a second transport request: for every input and stream, at most one transport request appears in the trace (zero when a precondition fails, one otherwise); after tool calls execute the assistant content is replaced by a locally synthesized summary instead of re-entering streaming. -/
theorem c1_single_transport_request (text apiKey : String) (st0 : ChatState)
    (stream : List StreamEvent) (exec : String → Json → Except String Json) (now : Nat) :
    transportOpenCount (sendMessage text apiKey st0 stream exec now).trace ≤ 1 := by
  by_cases h1 : jsTrim text = ""
  · unfold sendMessage; rw [if_pos h1]; simp [transportOpenCount]
  · by_cases h2 : text.length > MAX_INPUT_LENGTH
    · unfold sendMessage; rw [if_neg h1, if_pos h2]; simp [transportOpenCount]
    · by_cases h3 : apiKey = ""
      · unfold sendMessage; rw [if_neg h1, if_neg h2, if_pos h3]; simp [transportOpenCount]
      · rw [sendMessage_main text apiKey st0 stream exec now h1 h2 h3]
        dsimp only
        split
        · rw [toolLoop_transportOpenCount]
          simp [transportOpenCount, isTransportOpen]
        · simp [transportOpenCount, isTransportOpen]

/-- C7: when validation of a tool call fails (or its execution throws), the calls after it in the queue are abandoned, the calls before it are unaffected, the runtime error is set to the tool-scoped failure message, and the accumulated final content is retained unchanged. -/
theorem c7_tool_failure_aborts_remaining (exec : String → Json → Except String Json) (now : Nat)
    (res : ToolCallRec → Json) (acc : ToolLoopAcc)
    (pre : List ToolCallRec) (bad : ToolCallRec) (rest : List ToolCallRec)
    (hval : ∀ tc ∈ pre, (validateToolCall tc.name tc.args).valid = true)
    (hreg : ∀ tc ∈ pre, (getTool tc.name).isSome = true)
    (hexec : ∀ tc ∈ pre, exec tc.name tc.args = .ok (res tc)) :
    let r := toolLoop exec now acc pre
    ((validateToolCall bad.name bad.args).valid = false →
      toolLoop exec now acc (pre ++ bad :: rest) =
        ⟨{ r.state with runtime :=
             completeToolExecution (setError r.state.runtime
               ("Tool execution failed: Tool validation failed: " ++
                 jsDisplay ((validateToolCall bad.name bad.args).error.map Json.str))) },
         r.finalContent, r.trace⟩) ∧
    (∀ spec em, (validateToolCall bad.name bad.args).valid = true →
      getTool bad.name = some spec → exec bad.name bad.args = .error em →
      toolLoop exec now acc (pre ++ bad :: rest) =
        ⟨{ r.state with runtime :=
             completeToolExecution (setError
               (startToolExecution r.state.runtime bad.name)
               ("Tool execution failed: " ++ em)) },
         r.finalContent,
         r.trace ++ [.toolExecuted bad.name]⟩) := by
  intro r
  constructor
  · intro hbad
    rw [toolLoop_append_ok exec now res pre (bad :: rest) acc hval hreg hexec,
      toolLoop_cons_invalid exec now _ bad rest hbad]
  · intro spec em hv hg he
    rw [toolLoop_append_ok exec now res pre (bad :: rest) acc hval hreg hexec,
      toolLoop_cons_execError exec now _ bad rest spec em hv hg he]
theorem filterMap_toolTag_map (calls : List ToolCallRec) :
    (calls.map (fun tc => (Role.tool, some tc.name))).filterMap
      (fun p => if p.1 = Role.tool then some p.2 else none) =
      calls.map (fun tc => some tc.name) := by
  induction calls with
  | nil => rfl
  | cons tc rest ih => simp [ih]

/-- C6: tool calls are executed in the order their completed events appear on the stream (first-completed order, not index order), and the tool-result messages are appended to the log in that same order. -/
theorem c6_first_completed_order (text apiKey : String) (st0 : ChatState) (stream : List StreamEvent)
    (exec : String → Json → Except String Json) (now : Nat) (res : ToolCallRec → Json)
    (h1 : ¬ jsTrim text = "") (h2 : ¬ text.length > MAX_INPUT_LENGTH) (h3 : ¬ apiKey = "")
    (hval : ∀ tc ∈ streamToolCalls stream, (validateToolCall tc.name tc.args).valid = true)
    (hreg : ∀ tc ∈ streamToolCalls stream, (getTool tc.name).isSome = true)
    (hexec : ∀ tc ∈ streamToolCalls stream, exec tc.name tc.args = .ok (res tc)) :
    executedNames (sendMessage text apiKey st0 stream exec now).trace =
      (streamToolCalls stream).map (fun tc => tc.name) ∧
    toolTags (sendMessage text apiKey st0 stream exec now).state.msgs =
      toolTags st0.msgs ++ (streamToolCalls stream).map (fun tc => some tc.name) := by
  rw [sendMessage_main text apiKey st0 stream exec now h1 h2 h3]
  dsimp only
  rw [foldl_streamStep_toolCalls, List.nil_append]
  have hRT := foldl_streamStep_roleTags stream
    ⟨⟨addMessage (addMessage st0.msgs ⟨toString now, .user, jsTrim text, now, none, none⟩)
        ⟨toString (now + 1), .assistant, "", now, none, none⟩,
      startStreaming st0.runtime⟩, "", []⟩
  generalize hS : List.foldl streamStep
      ⟨⟨addMessage (addMessage st0.msgs ⟨toString now, .user, jsTrim text, now, none, none⟩)
          ⟨toString (now + 1), .assistant, "", now, none, none⟩,
        startStreaming st0.runtime⟩, "", []⟩ stream = sAcc at hRT ⊢
  by_cases hc : (streamToolCalls stream).length > 0
  · rw [if_pos hc]
    obtain ⟨ht, hr, he⟩ := toolLoop_ok_run exec now res (streamToolCalls stream)
      ⟨sAcc.state, sAcc.finalContent,
       [.transportOpened ((st0.msgs.messages.filter
           (fun m => decide (m.role ≠ .assistant ∧ m.role ≠ .tool))) ++
         [⟨toString now, .user, jsTrim text, now, none, none⟩])]⟩ hval hreg hexec
    refine ⟨?_, ?_⟩
    · rw [ht, executedNames_append, executedNames_map_toolExec]
      simp [executedNames]
    · rw [toolTags_eq, roleTags_updateLast, hr]
      dsimp only
      rw [hRT, roleTags_addMessage, roleTags_addMessage]
      rw [List.filterMap_append, List.filterMap_append, List.filterMap_append]
      rw [← toolTags_eq, filterMap_toolTag_map]
      simp
  · rw [if_neg hc]
    have hnil : streamToolCalls stream = [] :=
      List.eq_nil_of_length_eq_zero (Nat.eq_zero_of_not_pos hc)
    refine ⟨?_, ?_⟩
    · simp [hnil, executedNames]
    · rw [toolTags_eq, roleTags_updateLast]
      dsimp only
      rw [hRT, roleTags_addMessage, roleTags_addMessage]
      rw [List.filterMap_append, List.filterMap_append]
      rw [← toolTags_eq]
      simp [hnil]

/-- C3 counterexample: a second complete delta for the already-retired index 0 is not ignored: the decoder emits a second ToolCall for index 0, contradicting at-most-one emission per fragment index. -/
theorem c3_counterexample :
    toolCallEventCountFor (some (.num 0)) (decodeStream [resurrectChunk]) = 2 := by
  rfl

/-- C1 counterexample: a send whose stream proposes one tool call that validates and executes successfully still opens exactly one transport request - no second transport request seeded with the tool result is ever opened. -/
theorem c1_counterexample :
    let st0 : ChatState := ⟨⟨[]⟩, ⟨false, false, none, none, 0⟩⟩
    let out := sendMessage "hi" "k" st0
      [.toolCall (some (.num 0)) "get_current_time" (.obj [])]
      (fun _ _ => .ok (.obj [("formatted", .str "F")])) 7
    transportOpenCount out.trace = 1 ∧
    executedNames out.trace = ["get_current_time"] := by
  exact ⟨rfl, rfl⟩

/-- C10 witness: concrete stores exercising the empty-store, frame and
last-message conclusions. -/
theorem c10_witness :
    updateLastMessage ⟨[]⟩ ⟨some "x", none⟩ = ⟨[]⟩ ∧
    (updateLastMessage ⟨[⟨"1", Role.user, "hi", 0, none, none⟩,
        ⟨"2", Role.assistant, "", 0, none, none⟩]⟩ ⟨some "done", some true⟩).messages[0]? =
      (⟨[⟨"1", Role.user, "hi", 0, none, none⟩,
         ⟨"2", Role.assistant, "", 0, none, none⟩]⟩ : MessagesState).messages[0]? ∧
    (updateLastMessage ⟨[⟨"1", Role.user, "hi", 0, none, none⟩,
        ⟨"2", Role.assistant, "", 0, none, none⟩]⟩ ⟨some "done", some true⟩).messages.getLast? =
      some (applyUpdates ⟨"2", Role.assistant, "", 0, none, none⟩ ⟨some "done", some true⟩) :=
  ⟨(c10_updateLastMessage_frame ⟨[]⟩ ⟨some "x", none⟩).1 rfl,
   (c10_updateLastMessage_frame ⟨[⟨"1", Role.user, "hi", 0, none, none⟩,
      ⟨"2", Role.assistant, "", 0, none, none⟩]⟩ ⟨some "done", some true⟩).2.2.1 0 (by decide),
   (c10_updateLastMessage_frame ⟨[⟨"1", Role.user, "hi", 0, none, none⟩,
      ⟨"2", Role.assistant, "", 0, none, none⟩]⟩ ⟨some "done", some true⟩).2.2.2
     ⟨"2", Role.assistant, "", 0, none, none⟩ rfl⟩

/-- C9 witness: an unregistered tool name, a validator throw on null
arguments (caught and converted), and the shape conclusion at a passing
input. -/
theorem c9_witness :
    validateToolCall "frobnicate" Json.null =
      ⟨false, some ("No validator found for tool: " ++ "frobnicate")⟩ ∧
    validateToolCall "calculate" Json.null =
      ⟨false, some ("Validation error: " ++
        "Cannot read properties of null reading expression")⟩ ∧
    VShape (validateToolCall "get_current_time" (Json.obj [])) :=
  ⟨(c9_validateToolCall_total "frobnicate" Json.null).2.1 rfl,
   (c9_validateToolCall_total "calculate" Json.null).2.2 validateCalculate
     "Cannot read properties of null reading expression" rfl rfl,
   (c9_validateToolCall_total "get_current_time" (Json.obj [])).1⟩

/-- C8 witness: whitespace-only input fails fast with the store unchanged
and an empty trace. -/
theorem c8_witness :
    ∃ e, sendMessage "   " "key" ⟨⟨[]⟩, ⟨false, false, none, none, 0⟩⟩ []
        (fun _ _ => .ok Json.null) 0 =
      ⟨.error e, ⟨⟨[]⟩, ⟨false, false, none, none, 0⟩⟩, []⟩ :=
  c8_preconditions_fail_fast "   " "key" ⟨⟨[]⟩, ⟨false, false, none, none, 0⟩⟩ []
    (fun _ _ => .ok Json.null) 0 (Or.inl rfl)

/-- C5 witness: a malformed payload line between valid frames is skipped
and the following valid frame is still decoded. -/
theorem c5_witness :
    jsonParse "\x7boops" = none ∧
    runLinesSt [] ([] ++ (dataMarker ++ "\x7boops".toList) ::
        [("data: \x7b\"choices\":[\x7b\"delta\":\x7b\"content\":\"Hi\"\x7d\x7d]\x7d").toList]) =
      runLinesSt []
        ([] ++ [("data: \x7b\"choices\":[\x7b\"delta\":\x7b\"content\":\"Hi\"\x7d\x7d]\x7d").toList]) :=
  ⟨rfl,
   c5_malformed_line_skipped [] []
     [("data: \x7b\"choices\":[\x7b\"delta\":\x7b\"content\":\"Hi\"\x7d\x7d]\x7d").toList]
     "\x7boops".toList rfl (by decide)⟩

/-- C3 witness: a delta that completes (name plus parseable arguments)
emits exactly one ToolCall and leaves its index retired from the map. -/
theorem c3_witness :
    mapGet [] ((Json.obj [("index", Json.num 0),
        ("function", Json.obj [("name", Json.str "get_current_time"),
          ("arguments", Json.str "\x7b\x7d")])]).getField "index") = none ∧
    ([StreamEvent.toolCall (some (Json.num 0)) "get_current_time" (Json.obj [])] :
      List StreamEvent).length = 1 :=
  c3_emitted_fragment_retired []
    (Json.obj [("index", Json.num 0),
      ("function", Json.obj [("name", Json.str "get_current_time"),
        ("arguments", Json.str "\x7b\x7d")])])
    [] [StreamEvent.toolCall (some (Json.num 0)) "get_current_time" (Json.obj [])]
    rfl (List.cons_ne_nil _ _)

/-- C7 witness: a queue of three calls where the second one (calculate)
fails at execution: the first call ran, the failure is surfaced on the
runtime, the accumulated content survives, and the third call never runs. -/
theorem c7_witness :
    let exec7 : String → Json → Except String Json :=
      fun n _ => if n = "calculate" then .error "boom" else .ok (Json.obj [])
    let acc : ToolLoopAcc :=
      ⟨⟨⟨[⟨"1", Role.assistant, "Let me check", 0, none, none⟩]⟩,
        ⟨true, false, none, none, 0⟩⟩,
       "Let me check", [TraceStep.transportOpened []]⟩
    let pre : List ToolCallRec := [⟨some (Json.num 0), "get_current_time", Json.obj []⟩]
    let bad : ToolCallRec :=
      ⟨some (Json.num 1), "calculate", Json.obj [("expression", Json.str "2+2")]⟩
    let rest1 : List ToolCallRec := [⟨some (Json.num 2), "get_current_time", Json.obj []⟩]
    let r := toolLoop exec7 9 acc (pre ++ bad :: rest1)
    r.state.runtime.lastError = some "Tool execution failed: boom" ∧
    r.finalContent = "The current time is: undefined" ∧
    executedNames r.trace = ["get_current_time", "calculate"] := by
  intro exec7 acc pre bad rest1 r
  have hv : ∀ tc ∈ pre, (validateToolCall tc.name tc.args).valid = true := by
    intro tc htc
    rcases List.mem_cons.mp htc with rfl | h0
    · decide
    · exact absurd h0 (List.not_mem_nil tc)
  have hr : ∀ tc ∈ pre, (getTool tc.name).isSome = true := by
    intro tc htc
    rcases List.mem_cons.mp htc with rfl | h0
    · decide
    · exact absurd h0 (List.not_mem_nil tc)
  have he : ∀ tc ∈ pre, exec7 tc.name tc.args = .ok ((fun _ => Json.obj []) tc) := by
    intro tc htc
    rcases List.mem_cons.mp htc with rfl | h0
    · rfl
    · exact absurd h0 (List.not_mem_nil tc)
  have h := (c7_tool_failure_aborts_remaining exec7 9 (fun _ => Json.obj []) acc
    pre bad rest1 hv hr he).2 ⟨"calculate", false⟩ "boom" (by decide) rfl rfl
  show r.state.runtime.lastError = _ ∧ r.finalContent = _ ∧ executedNames r.trace = _
  rw [show r = toolLoop exec7 9 acc (pre ++ bad :: rest1) from rfl, h]
  exact ⟨rfl, rfl, rfl⟩

/-- C6 witness: deltas for indices 0 and 1 where the index 1 arguments
become parseable before index 0 finishes; the decoder emits index 1 first,
execution follows in the order 1 then 0, and the two tool-result messages
land in the log in that same order. -/
theorem c6_witness :
    decodeStream [oooChunk1, oooChunk2, oooChunk3] =
      [.toolCall (some (.num 1)) "get_current_time" (.obj []),
       .toolCall (some (.num 0)) "calculate" (.obj [("expression", .str "2+2")])] ∧
    executedNames (sendMessage "hi" "k" ⟨⟨[]⟩, ⟨false, false, none, none, 0⟩⟩
        (decodeStream [oooChunk1, oooChunk2, oooChunk3])
        (fun n _ => .ok (if n = "get_current_time" then Json.obj [("formatted", Json.str "F")]
                         else Json.obj [("result", Json.num 4)])) 7).trace =
      ["get_current_time", "calculate"] ∧
    toolTags (sendMessage "hi" "k" ⟨⟨[]⟩, ⟨false, false, none, none, 0⟩⟩
        (decodeStream [oooChunk1, oooChunk2, oooChunk3])
        (fun n _ => .ok (if n = "get_current_time" then Json.obj [("formatted", Json.str "F")]
                         else Json.obj [("result", Json.num 4)])) 7).state.msgs =
      [some "get_current_time", some "calculate"] := by
  have s1 : chunkStep ⟨[], [], false⟩ oooChunk1 =
      (⟨[(some (Json.num 0), ⟨some (Json.num 0), "calculate", "\x7b\"expr"⟩)], [], false⟩,
       []) := rfl
  have s2 : chunkStep
      ⟨[(some (Json.num 0), ⟨some (Json.num 0), "calculate", "\x7b\"expr"⟩)], [], false⟩
      oooChunk2 =
      (⟨[(some (Json.num 0), ⟨some (Json.num 0), "calculate", "\x7b\"expr"⟩)], [], false⟩,
       [.toolCall (some (.num 1)) "get_current_time" (.obj [])]) := rfl
  have s3 : chunkStep
      ⟨[(some (Json.num 0), ⟨some (Json.num 0), "calculate", "\x7b\"expr"⟩)], [], false⟩
      oooChunk3 =
      (⟨[], [], false⟩,
       [.toolCall (some (.num 0)) "calculate" (.obj [("expression", .str "2+2")])]) := rfl
  have hdec : decodeStream [oooChunk1, oooChunk2, oooChunk3] =
      [.toolCall (some (.num 1)) "get_current_time" (.obj []),
       .toolCall (some (.num 0)) "calculate" (.obj [("expression", .str "2+2")])] := by
    unfold decodeStream
    rw [runChunks_cons, s1]
    rw [runChunks_cons, s2]
    rw [runChunks_cons, s3]
    rfl
  refine ⟨hdec, ?_, ?_⟩
  · rw [hdec]
    exact (c6_first_completed_order "hi" "k" ⟨⟨[]⟩, ⟨false, false, none, none, 0⟩⟩
      [.toolCall (some (.num 1)) "get_current_time" (.obj []),
       .toolCall (some (.num 0)) "calculate" (.obj [("expression", .str "2+2")])]
      (fun n _ => .ok (if n = "get_current_time" then Json.obj [("formatted", Json.str "F")]
                       else Json.obj [("result", Json.num 4)])) 7
      (fun tc => if tc.name = "get_current_time" then Json.obj [("formatted", Json.str "F")]
                 else Json.obj [("result", Json.num 4)])
      (by decide) (by decide) (by decide)
      (by
        intro tc htc
        rcases List.mem_cons.mp htc with rfl | htc
        · decide
        · rcases List.mem_cons.mp htc with rfl | h0
          · decide
          · exact absurd h0 (List.not_mem_nil tc))
      (by
        intro tc htc
        rcases List.mem_cons.mp htc with rfl | htc
        · decide
        · rcases List.mem_cons.mp htc with rfl | h0
          · decide
          · exact absurd h0 (List.not_mem_nil tc))
      (fun tc _ => rfl)).1
  · rw [hdec]
    exact (c6_first_completed_order "hi" "k" ⟨⟨[]⟩, ⟨false, false, none, none, 0⟩⟩
      [.toolCall (some (.num 1)) "get_current_time" (.obj []),
       .toolCall (some (.num 0)) "calculate" (.obj [("expression", .str "2+2")])]
      (fun n _ => .ok (if n = "get_current_time" then Json.obj [("formatted", Json.str "F")]
                       else Json.obj [("result", Json.num 4)])) 7
      (fun tc => if tc.name = "get_current_time" then Json.obj [("formatted", Json.str "F")]
                 else Json.obj [("result", Json.num 4)])
      (by decide) (by decide) (by decide)
      (by
        intro tc htc
        rcases List.mem_cons.mp htc with rfl | htc
        · decide
        · rcases List.mem_cons.mp htc with rfl | h0
          · decide
          · exact absurd h0 (List.not_mem_nil tc))
      (by
        intro tc htc
        rcases List.mem_cons.mp htc with rfl | htc
        · decide
        · rcases List.mem_cons.mp htc with rfl | h0
          · decide
          · exact absurd h0 (List.not_mem_nil tc))
      (fun tc _ => rfl)).2

end ChatbotAI
